import Mathlib

/-!
Shallow embedding of `toproxypdf` (`src/toproxypdf/__main__.py`): a tool that
reads a folder of images, filters invalid and excluded ones, resizes each to
a fixed card size, lays them out on a 3x3 grid per letter-sized page, and
writes a multi-page document.

Python numeric conventions used by the source and mirrored here:
  - `int(x)` on a float truncates toward zero; on the nonnegative dyadic
    products used by the layout code (`0.5*dpi`, `2.5*dpi`, ...) this is
    floor division by the denominator, and on possibly negative products
    (`int(2.5*dpi)` for arbitrary `dpi`) it is `Int.tdiv`.
  - `round(x)` is banker's rounding (half to even).  The source only applies
    it to `.01*dpi` and `.02*dpi`; for those products the float result
    agrees with exact rational rounding throughout the practical dpi range,
    so it is embedded as exact round-half-even of `num/den`.
  - `//` on ints is floor division (`Int.fdiv`).

External collaborators are modelled where the source calls them:
  - `os.listdir` results appear as a list of `Entry` values carrying the
    two filesystem observations the source makes about each entry (its name
    and `os.path.isfile`) together with the outcome of PIL image decoding.
  - PIL `Image.open`/`verify` succeed exactly when the entry carries image
    data; `Image.resize` succeeds with exactly the requested size when both
    target dimensions are at least 1 and raises
    `ValueError("height and width must be > 0")` otherwise, Pillow's
    documented behaviour for non-positive target sizes; `Image.new` yields
    a blank canvas of the requested size and colour; `paste` records the
    pasted image and its top-left coordinates.
-/

namespace ToProxyPdf

/-- Exact round-half-even of the rational `num / den`, the behaviour of
Python `round` as applied by the source to `.01*dpi` and `.02*dpi`. -/
def pyRound (num den : Nat) : Nat :=
  if 2 * (num % den) < den then num / den
  else if den < 2 * (num % den) then num / den + 1
  else if (num / den) % 2 = 0 then num / den else num / den + 1

/-- Column x-coordinates (`xcords`, lines 172-176):
`[int(.5*dpi), int(3*dpi + round(.01*dpi)), int(5.5*dpi + round(.02*dpi))]`. -/
def xcords (dpi : Nat) : List Nat :=
  [dpi / 2, 3 * dpi + pyRound dpi 100, 11 * dpi / 2 + pyRound (2 * dpi) 100]

/-- Row y-coordinates (`ycords`, lines 177-181):
`[int(.25*dpi), int(3.75*dpi + round(.01*dpi)), int(7.25*dpi + round(.02*dpi))]`. -/
def ycords (dpi : Nat) : List Nat :=
  [dpi / 4, 15 * dpi / 4 + pyRound dpi 100, 29 * dpi / 4 + pyRound (2 * dpi) 100]

/-- Width of a resized card image for positive dpi: `int(2.5 * dpi)`
(line 136). -/
def cardW (dpi : Nat) : Nat := 5 * dpi / 2

/-- Height of a resized card image for positive dpi: `int(3.5 * dpi)`
(line 136). -/
def cardH (dpi : Nat) : Nat := 7 * dpi / 2

/-- Number of page canvases (line 168): `-(-len(fileslist) // 9)` with
Python floor division. -/
def pageCount (n : Nat) : Nat := (-(Int.fdiv (-(n : Int)) 9)).toNat

/-- A page canvas: `Image.new("RGB", size, color)` plus the pastes applied
to it, each paste recording the pasted image and its top-left coordinates. -/
structure Canvas (α : Type) where
  size : Nat × Nat
  color : String
  pastes : List (α × Nat × Nat)
deriving DecidableEq, Repr

/-- Placeholder canvas used as the default of out-of-range list reads. -/
def emptyCanvas {α : Type} : Canvas α := ⟨(0, 0), "", []⟩

/-- A fresh background (lines 165-169):
`Image.new("RGB", (int(8.5*dpi), int(11*dpi)), color="white")`. -/
def blankCanvas {α : Type} (dpi : Nat) : Canvas α :=
  ⟨(17 * dpi / 2, 11 * dpi), "white", []⟩

/-- Coordinates of the paste for the image at index `i` (lines 189-190):
`x = xcords[i % 3]`, `y = ycords[(i % 9) // 3]`. -/
def pastePos (dpi i : Nat) : Nat × Nat :=
  ((xcords dpi).getD (i % 3) 0, (ycords dpi).getD (i % 9 / 3) 0)

/-- One iteration of the paste loop body (line 191):
`backgrounds[p].paste(img, pos)`. -/
def pasteImage {α : Type} (pages : List (Canvas α)) (p : Nat) (img : α)
    (pos : Nat × Nat) : List (Canvas α) :=
  pages.set p
    { pages.getD p emptyCanvas with
      pastes := (pages.getD p emptyCanvas).pastes ++ [(img, pos)] }

/-- The paste loop of `generate_images` (lines 188-192) over an enumerated
list of images. -/
def pasteAll {α : Type} (dpi : Nat) (pages : List (Canvas α))
    (items : List (Nat × α)) : List (Canvas α) :=
  items.foldl (fun pg q => pasteImage pg (q.1 / 9) q.2 (pastePos dpi q.1)) pages

/-- Embedding of `generate_images` (lines 154-194): create
`pageCount (len fileslist)` white backgrounds, then paste image `i` onto
background `i // 9` at `pastePos dpi i`. -/
def generate_images {α : Type} (fileslist : List α) (dpi : Nat) : List (Canvas α) :=
  pasteAll dpi
    ((List.range (pageCount fileslist.length)).map (fun _ => blankCanvas dpi))
    fileslist.enum

/-- The pastes that land on page `p`: the images whose index `i` satisfies
`i / 9 = p`, in index order, each at `pastePos dpi i`. -/
def pagePastes {α : Type} (dpi p : Nat) (items : List (Nat × α)) :
    List (α × Nat × Nat) :=
  (items.filter (fun q => q.1 / 9 == p)).map (fun q => (q.2, pastePos dpi q.1))

/-- A directory entry as observed by `list_files`: its name, whether it is
a regular file, and its decoded image dimensions when it is a valid image. -/
structure Entry where
  name : String
  isFile : Bool
  image : Option (Nat × Nat)
deriving DecidableEq, Repr

/-- Target resize width, `int(2.5 * dpi)` (line 136): Python `int()`
truncates the exact product `5 * dpi / 2` toward zero. -/
def targetW (dpi : Int) : Int := Int.tdiv (5 * dpi) 2

/-- Target resize height, `int(3.5 * dpi)` (line 136). -/
def targetH (dpi : Int) : Int := Int.tdiv (7 * dpi) 2

/-- Models Pillow `Image.resize`: succeeds with exactly the requested size
when both target dimensions are at least 1, raises otherwise.  The source
image dimensions are ignored: the resize is a direct stretch. -/
def pilResize (_source : Nat × Nat) (w h : Int) : Option (Int × Int) :=
  if w < 1 ∨ h < 1 then none else some (w, h)

/-- Python `str.lower`, acting codepoint-wise as it does on the ASCII
filenames considered here. -/
def pyLower (s : String) : String := ⟨s.data.map Char.toLower⟩

/-- Python `str.startswith`: the needle is a prefix of the codepoints. -/
def pyStartsWith (s pre : String) : Bool := pre.data.isPrefixOf s.data

/-- Exclusion test (line 116):
`any(files.lower().startswith(i) for i in arguments["excluded"])`.
The entry name is lowercased; the configured prefixes are used verbatim. -/
def matchesExcluded (name : String) (excluded : List String) : Bool :=
  excluded.any (fun p => pyStartsWith (pyLower name) p)

/-- Classification of one directory entry by the loop body of `list_files`
(lines 112-140): either a rejection record `(filename, reason)` appended to
`excluded_files`, or an accepted record `(filename, resized dimensions)`
appended to `allfiles`. -/
def classify (dpi : Int) (excluded : List String) (e : Entry) :
    (String × String) ⊕ (String × Int × Int) :=
  if matchesExcluded e.name excluded then
    Sum.inl (e.name, "is in excluded list")
  else if !e.isFile then
    Sum.inl (e.name, "is not a file")
  else
    match e.image with
    | none => Sum.inl (e.name, "is not a valid image")
    | some dims =>
      match pilResize dims (targetW dpi) (targetH dpi) with
      | none => Sum.inl (e.name, "is not a valid image")
      | some wh => Sum.inr (e.name, wh)

/-- The entry loop of `list_files` (lines 112-140): returns the accepted
records (`allfiles`) and the rejection records (`excluded_files`), both in
traversal order. -/
def processEntries (dpi : Int) (excluded : List String) :
    List Entry → List (String × Int × Int) × List (String × String)
  | [] => ([], [])
  | e :: es =>
    let rest := processEntries dpi excluded es
    match classify dpi excluded e with
    | Sum.inl r => (rest.1, r :: rest.2)
    | Sum.inr a => (a :: rest.1, rest.2)

/-- Sorted traversal order (line 108): `sorted(os.listdir(...))`. -/
def sortEntries (entries : List Entry) : List Entry :=
  entries.mergeSort (fun a b => a.name ≤ b.name)

/-- Embedding of `list_files` (lines 95-151): process the directory entries
in sorted-name order, returning the accepted images and rejection records. -/
def list_files (dpi : Int) (excluded : List String) (entries : List Entry) :
    List (String × Int × Int) × List (String × String) :=
  processEntries dpi excluded (sortEntries entries)

/-- The job configuration dict built by `parse_arguments` (lines 69-80). -/
structure Config where
  folder : String
  output : String
  excluded : List String
  dpi : Int
  verb : Nat
deriving DecidableEq, Repr

/-- Output name resolution (lines 61-66): default `output.pdf`, with a
`.pdf` suffix appended to a user-supplied name when absent. -/
def resolveOutput : Option String → String
  | none => "output.pdf"
  | some s => if s.endsWith ".pdf" then s else s ++ ".pdf"

/-- Embedding of `parse_arguments` (lines 10-92), parameterized by the
filesystem observations `path.isfile` and `path.isdir`.  The dpi option is
parsed with `type=int` and default 1000 (lines 42-47); no range check is
applied to its value.  The only fatal conditions are the output-file
collision (line 67) and the missing input folder (line 83). -/
def parse_arguments (isfile isdir : String → Bool) (folder : String)
    (outputArg : Option String) (excludedArg : List String)
    (dpiArg : Option Int) (verbose quiet : Bool) : Except String Config :=
  if isfile (resolveOutput outputArg) then
    Except.error "Attempted output file already exists"
  else if !isdir folder then
    Except.error (folder ++ " is not a folder.")
  else
    Except.ok
      ⟨folder, resolveOutput outputArg, excludedArg,
        match dpiArg with
        | none => 1000
        | some d => d,
        if quiet then 0 else if verbose then 2 else 1⟩

/-- Final document-writing step of `__main__` (lines 206-209):
`generated_images[0].save(..., append_images=generated_images[1:])`.
Indexing an empty Python list raises `IndexError`, which propagates to the
caller; otherwise the first page and the appended pages are handed to the
encoder. -/
def writeDocument {α : Type} (pages : List (Canvas α)) :
    Except String (Canvas α × List (Canvas α)) :=
  match pages with
  | [] => Except.error "IndexError: list index out of range"
  | p :: rest => Except.ok (p, rest)

/-!  Auxiliary lemmas. -/

lemma pageCount_eq (n : Nat) : pageCount n = (n + 8) / 9 := by
  have h : Int.fdiv (-(n : Int)) 9 = (-(n : Int)) / 9 := by
    rw [Int.fdiv_eq_ediv _ (by omega)]
  unfold pageCount
  rw [h]
  omega

lemma pyRound_le_pyRound_double (d : Nat) : pyRound d 100 ≤ pyRound (2 * d) 100 := by
  unfold pyRound
  split_ifs <;> omega

lemma tdiv_two_nonpos {a : Int} (h : a ≤ 0) : Int.tdiv a 2 ≤ 0 := by
  match a, h with
  | Int.ofNat n, h =>
    have hn : n = 0 := by
      simp only [Int.ofNat_eq_natCast] at h
      exact_mod_cast Int.le_antisymm h (by positivity)
    subst hn
    decide
  | Int.negSucc m, _ =>
    show -(Int.ofNat ((m + 1) / 2)) ≤ 0
    simp only [Int.ofNat_eq_natCast]
    omega

section PasteAll

variable {α : Type}

lemma length_pasteImage (pages : List (Canvas α)) (p : Nat) (img : α)
    (pos : Nat × Nat) : (pasteImage pages p img pos).length = pages.length :=
  List.length_set pages p _

lemma pasteAll_cons (dpi : Nat) (pages : List (Canvas α)) (q : Nat × α)
    (rest : List (Nat × α)) :
    pasteAll dpi pages (q :: rest)
      = pasteAll dpi (pasteImage pages (q.1 / 9) q.2 (pastePos dpi q.1)) rest := rfl

lemma length_pasteAll (dpi : Nat) (items : List (Nat × α)) :
    ∀ pages : List (Canvas α), (pasteAll dpi pages items).length = pages.length := by
  induction items with
  | nil => intro pages; rfl
  | cons q rest ih =>
    intro pages
    rw [pasteAll_cons, ih, length_pasteImage]

lemma getD_pasteImage_self (pages : List (Canvas α)) (p : Nat) (img : α)
    (pos : Nat × Nat) (h : p < pages.length) :
    (pasteImage pages p img pos).getD p emptyCanvas
      = { pages.getD p emptyCanvas with
          pastes := (pages.getD p emptyCanvas).pastes ++ [(img, pos)] } := by
  unfold pasteImage
  rw [List.getD_eq_getElem _ _ (by simpa using h), List.getElem_set]
  simp

lemma getD_pasteImage_ne (pages : List (Canvas α)) (p q : Nat) (img : α)
    (pos : Nat × Nat) (h : p ≠ q) :
    (pasteImage pages p img pos).getD q emptyCanvas = pages.getD q emptyCanvas := by
  unfold pasteImage
  by_cases hq : q < pages.length
  · rw [List.getD_eq_getElem _ _ (by simpa using hq), List.getElem_set, if_neg h,
      List.getD_eq_getElem _ _ hq]
  · rw [List.getD_eq_default _ _ (by simpa using not_lt.mp hq),
      List.getD_eq_default _ _ (not_lt.mp hq)]

lemma pasteAll_getD (dpi : Nat) (items : List (Nat × α)) :
    ∀ (pages : List (Canvas α)) (p : Nat), p < pages.length →
      (∀ q ∈ items, q.1 / 9 < pages.length) →
      (pasteAll dpi pages items).getD p emptyCanvas
        = { pages.getD p emptyCanvas with
            pastes := (pages.getD p emptyCanvas).pastes ++ pagePastes dpi p items } := by
  induction items with
  | nil =>
    intro pages p _ _
    simp [pasteAll, pagePastes]
  | cons q rest ih =>
    intro pages p hp hin
    have hq9 : q.1 / 9 < pages.length := hin q (List.mem_cons_self q rest)
    rw [pasteAll_cons,
      ih _ p (by rw [length_pasteImage]; exact hp)
        (fun r hr => by
          rw [length_pasteImage]
          exact hin r (List.mem_cons_of_mem q hr))]
    by_cases hpq : q.1 / 9 = p
    · subst hpq
      rw [getD_pasteImage_self _ _ _ _ hq9]
      simp [pagePastes, List.filter_cons]
    · rw [getD_pasteImage_ne _ _ _ _ _ hpq]
      simp [pagePastes, List.filter_cons, hpq]

end PasteAll

section GenerateImages

variable {α : Type}

lemma generate_images_length (fileslist : List α) (dpi : Nat) :
    (generate_images fileslist dpi).length = pageCount fileslist.length := by
  unfold generate_images
  rw [length_pasteAll]
  simp

lemma mem_enum_bound {q : Nat × α} {l : List α} (h : q ∈ l.enum) :
    q.1 < l.length := by
  obtain ⟨i, x⟩ := q
  have := List.mem_enumFrom (by simpa [List.enum] using h)
  omega

lemma generate_images_getD (fileslist : List α) (dpi p : Nat)
    (hp : p < pageCount fileslist.length) :
    (generate_images fileslist dpi).getD p emptyCanvas
      = { (blankCanvas dpi : Canvas α) with pastes := pagePastes dpi p fileslist.enum } := by
  unfold generate_images
  have hlen : ((List.range (pageCount fileslist.length)).map
      (fun _ => (blankCanvas dpi : Canvas α))).length = pageCount fileslist.length := by
    simp
  rw [pasteAll_getD _ _ _ p (by rw [hlen]; exact hp)
    (fun q hq => by
      rw [hlen]
      have h1 := mem_enum_bound hq
      rw [pageCount_eq] at *
      omega)]
  rw [List.getD_eq_getElem _ _ (by rw [hlen]; exact hp), List.getElem_map]
  simp [blankCanvas]

lemma generate_images_mem (fileslist : List α) (dpi : Nat) (c : Canvas α)
    (hc : c ∈ generate_images fileslist dpi) :
    c.size = (17 * dpi / 2, 11 * dpi) ∧ c.color = "white" := by
  obtain ⟨p, hp, hcp⟩ := List.mem_iff_getElem.mp hc
  have hp2 : p < pageCount fileslist.length := by
    rw [generate_images_length] at hp
    exact hp
  have : (generate_images fileslist dpi).getD p emptyCanvas = c := by
    rw [List.getD_eq_getElem _ _ hp]
    exact hcp
  rw [generate_images_getD _ _ _ hp2] at this
  rw [← this]
  constructor <;> rfl

end GenerateImages

section Separation

lemma xcords_sep (dpi : Nat) {a b : Nat} (hab : a < b) (hb : b < 3) :
    (xcords dpi).getD a 0 + cardW dpi ≤ (xcords dpi).getD b 0 := by
  have hm := pyRound_le_pyRound_double dpi
  interval_cases b <;> interval_cases a <;> simp [xcords, cardW] <;> omega

lemma ycords_sep (dpi : Nat) {a b : Nat} (hab : a < b) (hb : b < 3) :
    (ycords dpi).getD a 0 + cardH dpi ≤ (ycords dpi).getD b 0 := by
  have hm := pyRound_le_pyRound_double dpi
  interval_cases b <;> interval_cases a <;> simp [ycords, cardH] <;> omega

end Separation

section ResolverLemmas

lemma pilResize_eq {src : Nat × Nat} {w h : Int} {wh : Int × Int}
    (hr : pilResize src w h = some wh) : wh = (w, h) := by
  unfold pilResize at hr
  split at hr
  · cases hr
  · cases hr
    rfl

lemma classify_inl {dpi : Int} {excluded : List String} {e : Entry}
    {r : String × String} (h : classify dpi excluded e = Sum.inl r) :
    r.1 = e.name ∧
      (r.2 = "is in excluded list" ∨ r.2 = "is not a file" ∨
        r.2 = "is not a valid image") := by
  unfold classify at h
  split at h
  · cases h
    exact ⟨rfl, Or.inl rfl⟩
  · split at h
    · cases h
      exact ⟨rfl, Or.inr (Or.inl rfl)⟩
    · split at h
      · cases h
        exact ⟨rfl, Or.inr (Or.inr rfl)⟩
      · split at h
        · cases h
          exact ⟨rfl, Or.inr (Or.inr rfl)⟩
        · cases h

lemma classify_inr {dpi : Int} {excluded : List String} {e : Entry}
    {a : String × Int × Int} (h : classify dpi excluded e = Sum.inr a) :
    a.1 = e.name ∧ a.2 = (targetW dpi, targetH dpi) := by
  unfold classify at h
  split at h
  · cases h
  · split at h
    · cases h
    · split at h
      · cases h
      · split at h
        · cases h
        · cases h
          exact ⟨rfl, (pilResize_eq (by assumption)).symm ▸ rfl⟩

lemma processEntries_cons (dpi : Int) (excluded : List String) (e : Entry)
    (es : List Entry) :
    processEntries dpi excluded (e :: es)
      = match classify dpi excluded e with
        | Sum.inl r =>
          ((processEntries dpi excluded es).1, r :: (processEntries dpi excluded es).2)
        | Sum.inr a =>
          (a :: (processEntries dpi excluded es).1, (processEntries dpi excluded es).2) := rfl

lemma processEntries_length (dpi : Int) (excluded : List String) :
    ∀ l : List Entry,
      (processEntries dpi excluded l).1.length + (processEntries dpi excluded l).2.length
        = l.length := by
  intro l
  induction l with
  | nil => rfl
  | cons e es ih =>
    rw [processEntries_cons]
    rcases hc : classify dpi excluded e with r | a <;> simp <;> omega

lemma processEntries_names_perm (dpi : Int) (excluded : List String) :
    ∀ l : List Entry,
      ((processEntries dpi excluded l).1.map Prod.fst
          ++ (processEntries dpi excluded l).2.map Prod.fst).Perm
        (l.map Entry.name) := by
  intro l
  induction l with
  | nil => simp [processEntries]
  | cons e es ih =>
    rw [processEntries_cons]
    rcases hc : classify dpi excluded e with r | a
    · have hn := (classify_inl hc).1
      simp only [List.map_cons]
      refine List.perm_middle.trans ?_
      rw [hn]
      exact ih.cons e.name
    · have hn := (classify_inr hc).1
      simp only [List.map_cons, List.cons_append]
      rw [hn]
      exact ih.cons e.name

lemma processEntries_acc_sublist (dpi : Int) (excluded : List String) :
    ∀ l : List Entry,
      ((processEntries dpi excluded l).1.map Prod.fst).Sublist (l.map Entry.name) := by
  intro l
  induction l with
  | nil => simp [processEntries]
  | cons e es ih =>
    rw [processEntries_cons]
    rcases hc : classify dpi excluded e with r | a
    · exact ih.cons e.name
    · have hn := (classify_inr hc).1
      simp only [List.map_cons]
      rw [hn]
      exact ih.cons₂ e.name

lemma processEntries_rej_sublist (dpi : Int) (excluded : List String) :
    ∀ l : List Entry,
      ((processEntries dpi excluded l).2.map Prod.fst).Sublist (l.map Entry.name) := by
  intro l
  induction l with
  | nil => simp [processEntries]
  | cons e es ih =>
    rw [processEntries_cons]
    rcases hc : classify dpi excluded e with r | a
    · have hn := (classify_inl hc).1
      simp only [List.map_cons]
      rw [hn]
      exact ih.cons₂ e.name
    · exact ih.cons e.name

lemma processEntries_rej_reasons (dpi : Int) (excluded : List String) :
    ∀ (l : List Entry) (r : String × String), r ∈ (processEntries dpi excluded l).2 →
      r.2 = "is in excluded list" ∨ r.2 = "is not a file" ∨
        r.2 = "is not a valid image" := by
  intro l
  induction l with
  | nil => intro r hr; simp [processEntries] at hr
  | cons e es ih =>
    intro r hr
    rw [processEntries_cons] at hr
    rcases hc : classify dpi excluded e with r0 | a <;> rw [hc] at hr <;> simp at hr
    · rcases hr with hr | hr
      · exact hr ▸ (classify_inl hc).2
      · exact ih r hr
    · exact ih r hr

lemma processEntries_append (dpi : Int) (excluded : List String) :
    ∀ l1 l2 : List Entry,
      processEntries dpi excluded (l1 ++ l2)
        = ((processEntries dpi excluded l1).1 ++ (processEntries dpi excluded l2).1,
           (processEntries dpi excluded l1).2 ++ (processEntries dpi excluded l2).2) := by
  intro l1 l2
  induction l1 with
  | nil => simp [processEntries]
  | cons e es ih =>
    rw [List.cons_append, processEntries_cons, processEntries_cons, ih]
    rcases hc : classify dpi excluded e with r | a <;> simp

lemma processEntries_mem_rej (dpi : Int) (excluded : List String) :
    ∀ (l : List Entry) (e : Entry) (r : String × String), e ∈ l →
      classify dpi excluded e = Sum.inl r → r ∈ (processEntries dpi excluded l).2 := by
  intro l
  induction l with
  | nil => intro e r he _; simp at he
  | cons f es ih =>
    intro e r he hc
    rw [processEntries_cons]
    rcases List.mem_cons.mp he with rfl | hes
    · rw [hc]
      exact List.mem_cons_self r _
    · rcases hf : classify dpi excluded f with r0 | a <;> simp
      · exact Or.inr (ih e r hes hc)
      · exact ih e r hes hc

lemma processEntries_mem_acc (dpi : Int) (excluded : List String) :
    ∀ (l : List Entry) (a : String × Int × Int), a ∈ (processEntries dpi excluded l).1 →
      ∃ e ∈ l, classify dpi excluded e = Sum.inr a := by
  intro l
  induction l with
  | nil => intro a ha; simp [processEntries] at ha
  | cons f es ih =>
    intro a ha
    rw [processEntries_cons] at ha
    rcases hf : classify dpi excluded f with r | b <;> rw [hf] at ha <;> simp at ha
    · obtain ⟨e, he, hce⟩ := ih a ha
      exact ⟨e, List.mem_cons_of_mem f he, hce⟩
    · rcases ha with ha | ha
      · exact ⟨f, List.mem_cons_self f es, ha ▸ hf⟩
      · obtain ⟨e, he, hce⟩ := ih a ha
        exact ⟨e, List.mem_cons_of_mem f he, hce⟩

lemma classify_excluded_iff (dpi : Int) (excluded : List String) (e : Entry) :
    classify dpi excluded e = Sum.inl (e.name, "is in excluded list")
      ↔ matchesExcluded e.name excluded = true := by
  constructor
  · intro h
    by_cases hm : matchesExcluded e.name excluded = true
    · exact hm
    · exfalso
      unfold classify at h
      rw [if_neg hm] at h
      split at h
      · injection h with h1
        injection h1 with h2 h3
        exact absurd h3 (by decide)
      · split at h
        · injection h with h1
          injection h1 with h2 h3
          exact absurd h3 (by decide)
        · split at h
          · injection h with h1
            injection h1 with h2 h3
            exact absurd h3 (by decide)
          · cases h
  · intro hm
    unfold classify
    rw [if_pos hm]

lemma targetW_lt_one_of_nonpos {dpi : Int} (hdpi : dpi ≤ 0) : targetW dpi < 1 := by
  have h5 : 5 * dpi ≤ 0 := by omega
  have := tdiv_two_nonpos h5
  unfold targetW
  omega

lemma classify_invalid (dpi : Int) (excluded : List String) (e : Entry)
    (hx : matchesExcluded e.name excluded = false) (hf : e.isFile = true)
    (hfail : e.image = none ∨ ∃ dims, e.image = some dims ∧
        pilResize dims (targetW dpi) (targetH dpi) = none) :
    classify dpi excluded e = Sum.inl (e.name, "is not a valid image") := by
  unfold classify
  rw [if_neg (by rw [hx]; exact Bool.false_ne_true), hf]
  rw [if_neg (by decide)]
  rcases hfail with himg | ⟨dims, himg, hres⟩
  · rw [himg]
  · rw [himg]
    show (match pilResize dims (targetW dpi) (targetH dpi) with
      | none => Sum.inl (e.name, "is not a valid image")
      | some wh => Sum.inr (e.name, wh)) = Sum.inl (e.name, "is not a valid image")
    rw [hres]

lemma classify_not_inr_of_nonpos {dpi : Int} (hdpi : dpi ≤ 0)
    (excluded : List String) (e : Entry) (a : String × Int × Int) :
    classify dpi excluded e ≠ Sum.inr a := by
  intro h
  have hw := targetW_lt_one_of_nonpos hdpi
  unfold classify at h
  split at h
  · cases h
  · split at h
    · cases h
    · split at h
      · cases h
      · split at h
        · cases h
        · rename_i dims wh hres
          unfold pilResize at hres
          rw [if_pos (Or.inl hw)] at hres
          cases hres

lemma sortEntries_perm (entries : List Entry) :
    (sortEntries entries).Perm entries :=
  List.mergeSort_perm entries _

lemma sortEntries_sorted (entries : List Entry) :
    List.Pairwise (fun a b : Entry => a.name ≤ b.name) (sortEntries entries) := by
  have h := @List.sorted_mergeSort Entry (fun a b : Entry => a.name ≤ b.name)
    (fun a b c hab hbc => by
      simp only [decide_eq_true_eq] at *
      exact le_trans hab hbc)
    (fun a b => by
      simp only [Bool.or_eq_true, decide_eq_true_eq]
      exact le_total a.name b.name)
    entries
  exact h.imp (fun hab => by simpa using hab)

end ResolverLemmas

/-!  Claim theorems. -/

/-- C1: for every accepted-image index `i` (0-based) and every positive
dpi, the image at index `i` is pasted onto the canvas with page index
`i / 9`, at x-coordinate `xcords[(i % 9) % 3]` and y-coordinate
`ycords[(i % 9) / 3]`, where `xcords` and `ycords` are the spec's tables
`X = [int(0.5*dpi), int(3.0*dpi + round(0.01*dpi)), int(5.5*dpi + round(0.02*dpi))]`
and
`Y = [int(0.25*dpi), int(3.75*dpi + round(0.01*dpi)), int(7.25*dpi + round(0.02*dpi))]`;
in particular the code's column formula `i % 3` agrees with the spec's
`(i % 9) % 3`. -/
theorem claim_C1 {α : Type} (fileslist : List α) (dpi i : Nat) (img : α)
    (hdpi : 0 < dpi) (hi : fileslist.get? i = some img) :
    ((img, (xcords dpi).getD (i % 9 % 3) 0, (ycords dpi).getD (i % 9 / 3) 0)
        ∈ ((generate_images fileslist dpi).getD (i / 9) emptyCanvas).pastes)
    ∧ i % 3 = i % 9 % 3 := by
  obtain ⟨hlen, hget⟩ := List.get?_eq_some.mp hi
  have hmod : i % 9 % 3 = i % 3 := by omega
  have hp : i / 9 < pageCount fileslist.length := by
    rw [pageCount_eq]
    omega
  refine ⟨?_, hmod.symm⟩
  rw [generate_images_getD _ _ _ hp]
  show _ ∈ pagePastes dpi (i / 9) fileslist.enum
  unfold pagePastes
  apply List.mem_map.mpr
  refine ⟨(i, img), ?_, ?_⟩
  · apply List.mem_filter.mpr
    refine ⟨?_, by simp⟩
    have hlen2 : i < fileslist.enum.length := by simpa using hlen
    have he := List.getElem_enum fileslist i hlen2
    have hm := List.getElem_mem hlen2
    rw [he] at hm
    have : fileslist[i] = img := hget
    rw [this] at hm
    exact hm
  · rw [hmod]
    rfl

/-- Witness for C1: with four accepted images and dpi 100, image index 3
lands on page 0 in the spec's cell, and the column formulas agree. -/
theorem claim_C1_witness :
    0 < 100 ∧ (["a", "b", "c", "d"] : List String).get? 3 = some "d"
    ∧ ((("d", (xcords 100).getD (3 % 9 % 3) 0, (ycords 100).getD (3 % 9 / 3) 0)
          ∈ ((generate_images (["a", "b", "c", "d"] : List String) 100).getD (3 / 9)
              emptyCanvas).pastes)
        ∧ 3 % 3 = 3 % 9 % 3) :=
  ⟨by decide, by decide, claim_C1 ["a", "b", "c", "d"] 100 3 "d" (by decide) (by decide)⟩

/-- C2: for a list of `n` accepted images and positive dpi,
`generate_images` creates exactly `ceil(n / 9)` page canvases (stated both
as `(n + 8) / 9` and by the ceiling characterization), each of size
`(int(8.5*dpi), int(11*dpi))` pixels and solid white.  In the embedding the
canvases are created by the background list comprehension before the paste
loop runs, mirroring lines 165-169 preceding lines 188-192. -/
theorem claim_C2 {α : Type} (fileslist : List α) (dpi : Nat) (hdpi : 0 < dpi) :
    (generate_images fileslist dpi).length = (fileslist.length + 8) / 9
    ∧ fileslist.length ≤ 9 * (generate_images fileslist dpi).length
    ∧ 9 * (generate_images fileslist dpi).length < fileslist.length + 9
    ∧ ∀ c ∈ generate_images fileslist dpi,
        c.size = (17 * dpi / 2, 11 * dpi) ∧ c.color = "white" := by
  have hl : (generate_images fileslist dpi).length = (fileslist.length + 8) / 9 := by
    rw [generate_images_length, pageCount_eq]
  refine ⟨hl, ?_, ?_, fun c hc => generate_images_mem _ _ _ hc⟩
  · rw [hl]
    omega
  · rw [hl]
    omega

/-- Witness for C2: ten accepted images at dpi 1000 produce two pages. -/
theorem claim_C2_witness :
    0 < 1000
    ∧ (generate_images (List.replicate 10 "x") 1000).length = (10 + 8) / 9 :=
  ⟨by decide, by
    have h := (claim_C2 (List.replicate 10 "x") 1000 (by decide)).1
    simpa using h⟩

/-- C4: for every dpi at least 1, the 9 pasted card rectangles of size
`(int(2.5*dpi), int(3.5*dpi))` placed at the computed cell coordinates are
pairwise non-overlapping: the pitch between consecutive columns is at least
the card width, the pitch between consecutive rows is at least the card
height, and any two distinct cells are separated along the x-axis or the
y-axis. -/
theorem claim_C4 (dpi : Nat) (hdpi : 1 ≤ dpi) :
    ((∀ j, j < 2 → (xcords dpi).getD j 0 + cardW dpi ≤ (xcords dpi).getD (j + 1) 0)
      ∧ (∀ j, j < 2 → (ycords dpi).getD j 0 + cardH dpi ≤ (ycords dpi).getD (j + 1) 0))
    ∧ ∀ c1 r1 c2 r2 : Nat, c1 < 3 → r1 < 3 → c2 < 3 → r2 < 3 → (c1, r1) ≠ (c2, r2) →
        ((xcords dpi).getD c1 0 + cardW dpi ≤ (xcords dpi).getD c2 0
          ∨ (xcords dpi).getD c2 0 + cardW dpi ≤ (xcords dpi).getD c1 0
          ∨ (ycords dpi).getD r1 0 + cardH dpi ≤ (ycords dpi).getD r2 0
          ∨ (ycords dpi).getD r2 0 + cardH dpi ≤ (ycords dpi).getD r1 0) := by
  refine ⟨⟨fun j hj => xcords_sep dpi (Nat.lt_succ_self j) (by omega),
            fun j hj => ycords_sep dpi (Nat.lt_succ_self j) (by omega)⟩, ?_⟩
  intro c1 r1 c2 r2 hc1 hr1 hc2 hr2 hne
  rcases Nat.lt_trichotomy c1 c2 with h | h | h
  · exact Or.inl (xcords_sep dpi h hc2)
  · rcases Nat.lt_trichotomy r1 r2 with h2 | h2 | h2
    · exact Or.inr (Or.inr (Or.inl (ycords_sep dpi h2 hr2)))
    · exact absurd (by rw [h, h2]) hne
    · exact Or.inr (Or.inr (Or.inr (ycords_sep dpi h2 hr1)))
  · exact Or.inr (Or.inl (xcords_sep dpi h hc1))

/-- C3: for every directory listing, `list_files` assigns every entry to
exactly one of the accepted sequence or the rejection list: the two outputs
partition the entries (the concatenation of their filename lists is a
permutation of the entry names, and the lengths add up), both outputs are
in sorted-name order, and every rejection reason is one of the three
reasons {excluded, not-a-file, invalid-image} (the code's literal strings). -/
theorem claim_C3 (dpi : Int) (excluded : List String) (entries : List Entry) :
    ((list_files dpi excluded entries).1.map Prod.fst
        ++ (list_files dpi excluded entries).2.map Prod.fst).Perm
      (entries.map Entry.name)
    ∧ (list_files dpi excluded entries).1.length
        + (list_files dpi excluded entries).2.length = entries.length
    ∧ List.Pairwise (fun a b : String => a ≤ b)
        ((list_files dpi excluded entries).1.map Prod.fst)
    ∧ List.Pairwise (fun a b : String => a ≤ b)
        ((list_files dpi excluded entries).2.map Prod.fst)
    ∧ ∀ r ∈ (list_files dpi excluded entries).2,
        r.2 = "is in excluded list" ∨ r.2 = "is not a file" ∨
          r.2 = "is not a valid image" := by
  have hperm := processEntries_names_perm dpi excluded (sortEntries entries)
  have hsp : ((sortEntries entries).map Entry.name).Perm (entries.map Entry.name) :=
    (sortEntries_perm entries).map Entry.name
  have hsorted : List.Pairwise (fun a b : String => a ≤ b)
      ((sortEntries entries).map Entry.name) :=
    List.pairwise_map.mpr (sortEntries_sorted entries)
  have hlen := processEntries_length dpi excluded (sortEntries entries)
  have hslen := (sortEntries_perm entries).length_eq
  refine ⟨hperm.trans hsp, ?_, ?_, ?_, ?_⟩
  · show (processEntries dpi excluded (sortEntries entries)).1.length
        + (processEntries dpi excluded (sortEntries entries)).2.length = entries.length
    omega
  · exact List.Pairwise.sublist
      (processEntries_acc_sublist dpi excluded (sortEntries entries)) hsorted
  · exact List.Pairwise.sublist
      (processEntries_rej_sublist dpi excluded (sortEntries entries)) hsorted
  · exact fun r hr => processEntries_rej_reasons dpi excluded (sortEntries entries) r hr

/-- C5 counterexample: the claim predicts that configured prefix `IMG_SKIP`
excludes the file `IMG_skip.png`, but the code lowercases only the filename
and compares the configured prefixes verbatim, so the match fails and the
entry is not rejected as excluded. -/
theorem claim_C5_counterexample :
    matchesExcluded "IMG_skip.png" ["IMG_SKIP"] = false
    ∧ classify 1000 ["IMG_SKIP"] ⟨"IMG_skip.png", true, some (100, 100)⟩
        ≠ Sum.inl ("IMG_skip.png", "is in excluded list") := by
  constructor
  · decide
  · decide

/-- C5 (amended): exclusion matching lowercases the filename only and is
prefix-based: an entry is rejected with reason excluded iff its lowercased
name starts with one of the configured prefixes taken verbatim.  Prefixes
supplied in lowercase therefore match case-insensitively (`IMG_skip.png` is
excluded by `img_skip`), but a prefix containing uppercase never matches. -/
theorem claim_C5 (dpi : Int) (excluded : List String) (e : Entry) :
    (classify dpi excluded e = Sum.inl (e.name, "is in excluded list")
      ↔ ∃ p ∈ excluded, pyStartsWith (pyLower e.name) p = true)
    ∧ matchesExcluded "IMG_skip.png" ["img_skip"] = true := by
  refine ⟨?_, by decide⟩
  rw [classify_excluded_iff]
  unfold matchesExcluded
  rw [List.any_eq_true]

/-- C6 counterexample: in the spec's worked scenario (dpi 100, accepted
images `a.png` and `c.jpg`), the second image is pasted at x-coordinate
`int(3*100 + round(.01*100)) = 301`, not at the spec's claimed 320. -/
theorem claim_C6_counterexample :
    ((generate_images ["a.png", "c.jpg"] 100).getD 0 emptyCanvas).pastes
      = [("a.png", (50, 25)), ("c.jpg", (301, 25))]
    ∧ ("c.jpg", (320, 25))
        ∉ ((generate_images ["a.png", "c.jpg"] 100).getD 0 emptyCanvas).pastes := by
  constructor
  · decide
  · decide

/-- C6 (amended): with dpi 100 and accepted images `[a.png, c.jpg]`, the
composition produces one page with `a.png` pasted at cell (0,0) at
coordinates (50, 25) and `c.jpg` at cell (1,0) at coordinates (301, 25). -/
theorem claim_C6 :
    (generate_images ["a.png", "c.jpg"] 100).length = 1
    ∧ ((generate_images ["a.png", "c.jpg"] 100).getD 0 emptyCanvas).pastes
        = [("a.png", ((xcords 100).getD 0 0, (ycords 100).getD 0 0)),
           ("c.jpg", ((xcords 100).getD 1 0, (ycords 100).getD 0 0))]
    ∧ (xcords 100).getD 0 0 = 50 ∧ (ycords 100).getD 0 0 = 25
    ∧ (xcords 100).getD 1 0 = 301 := by
  refine ⟨by decide, by decide, by decide, by decide, by decide⟩

/-- Witness for C4: at dpi 1000, the cells in column 0 and column 1 of the
same row do not overlap. -/
theorem claim_C4_witness :
    (1 : Nat) ≤ 1000
    ∧ ((xcords 1000).getD 0 0 + cardW 1000 ≤ (xcords 1000).getD 1 0
        ∨ (xcords 1000).getD 1 0 + cardW 1000 ≤ (xcords 1000).getD 0 0
        ∨ (ycords 1000).getD 0 0 + cardH 1000 ≤ (ycords 1000).getD 0 0
        ∨ (ycords 1000).getD 0 0 + cardH 1000 ≤ (ycords 1000).getD 0 0) :=
  ⟨by decide,
    (claim_C4 1000 (by decide)).2 0 0 1 0 (by decide) (by decide) (by decide)
      (by decide) (by decide)⟩

/-- C7: for every accepted entry and every dpi at least 1, the accepted
image is resized by a direct stretch to exactly
`(int(2.5*dpi), int(3.5*dpi))` pixels, whatever its original dimensions
(the entries carry arbitrary source dimensions and the result does not
depend on them). -/
theorem claim_C7 (dpi : Int) (hdpi : 1 ≤ dpi) (excluded : List String)
    (entries : List Entry) (a : String × Int × Int)
    (ha : a ∈ (list_files dpi excluded entries).1) :
    a.2 = (Int.tdiv (5 * dpi) 2, Int.tdiv (7 * dpi) 2) := by
  obtain ⟨e, he, hce⟩ := processEntries_mem_acc dpi excluded (sortEntries entries) a ha
  exact (classify_inr hce).2

/-- Witness for C7: a 7x9 source image at dpi 100 is accepted with
dimensions exactly (250, 350). -/
theorem claim_C7_witness :
    (1 : Int) ≤ 100
    ∧ ("a.png", (250 : Int), (350 : Int))
        ∈ (list_files 100 [] [⟨"a.png", true, some (7, 9)⟩]).1
    ∧ (("a.png", (250 : Int), (350 : Int)) : String × Int × Int).2
        = (Int.tdiv (5 * 100) 2, Int.tdiv (7 * 100) 2) := by
  have hmem : ("a.png", (250 : Int), (350 : Int))
      ∈ (list_files 100 [] [⟨"a.png", true, some (7, 9)⟩]).1 := by
    simp only [list_files, sortEntries, List.mergeSort_singleton]
    decide
  exact ⟨by decide, hmem,
    claim_C7 100 (by decide) [] [⟨"a.png", true, some (7, 9)⟩] _ hmem⟩

/-- C8: a per-file failure during decoding, verification, or resizing never
escapes `list_files`: the failing entry is recorded as a rejection with
reason invalid-image, and processing continues with the other entries
unchanged (the surrounding entries produce exactly the output they produce
without the failing entry). -/
theorem claim_C8 (dpi : Int) (excluded : List String) (entries : List Entry)
    (e : Entry) (he : e ∈ entries)
    (hx : matchesExcluded e.name excluded = false) (hf : e.isFile = true)
    (hfail : e.image = none ∨ ∃ dims, e.image = some dims ∧
        pilResize dims (targetW dpi) (targetH dpi) = none) :
    (e.name, "is not a valid image") ∈ (list_files dpi excluded entries).2
    ∧ ∀ l1 l2 : List Entry,
        processEntries dpi excluded (l1 ++ e :: l2)
          = ((processEntries dpi excluded l1).1 ++ (processEntries dpi excluded l2).1,
             (processEntries dpi excluded l1).2
               ++ (e.name, "is not a valid image") :: (processEntries dpi excluded l2).2) := by
  have hclass := classify_invalid dpi excluded e hx hf hfail
  constructor
  · exact processEntries_mem_rej dpi excluded (sortEntries entries) e _
      ((sortEntries_perm entries).mem_iff.mpr he) hclass
  · intro l1 l2
    rw [processEntries_append dpi excluded l1 (e :: l2), processEntries_cons, hclass]

/-- Witness for C8: an unreadable file `bad.png` is absorbed as an
invalid-image rejection and leaves the rest of the processing unchanged. -/
theorem claim_C8_witness :
    ((⟨"bad.png", true, none⟩ : Entry) ∈ ([⟨"bad.png", true, none⟩] : List Entry))
    ∧ matchesExcluded "bad.png" [] = false
    ∧ (⟨"bad.png", true, none⟩ : Entry).isFile = true
    ∧ (("bad.png", "is not a valid image")
        ∈ (list_files 1000 [] [⟨"bad.png", true, none⟩]).2
      ∧ processEntries 1000 [] ([] ++ (⟨"bad.png", true, none⟩ : Entry) :: [])
          = ((processEntries 1000 [] []).1 ++ (processEntries 1000 [] []).1,
             (processEntries 1000 [] []).2
               ++ ("bad.png", "is not a valid image") :: (processEntries 1000 [] []).2)) := by
  have h := claim_C8 1000 [] [⟨"bad.png", true, none⟩] ⟨"bad.png", true, none⟩
    (by decide) (by decide) rfl (Or.inl rfl)
  exact ⟨by decide, by decide, rfl, h.1, h.2 [] []⟩

/-- C9: with zero accepted images the page-canvas sequence is empty and the
document-writing step (`generated_images[0].save(...)`) fails with an error
propagated to the caller instead of producing an output document. -/
theorem claim_C9 (dpi : Nat) :
    generate_images ([] : List String) dpi = []
    ∧ ∃ msg, writeDocument (generate_images ([] : List String) dpi)
        = Except.error msg :=
  ⟨rfl, "IndexError: list index out of range", rfl⟩

/-- C10: for every dpi at most 0 the CLI accepts the value (the dpi option
is parsed as an int and never range-checked, so no configuration error is
raised), and `list_files` then rejects every otherwise-valid image file
with reason invalid-image — the resize to non-positive target dimensions
fails inside the per-file try block and is absorbed — so the accepted
sequence is empty. -/
theorem claim_C10 (dpi : Int) (hdpi : dpi ≤ 0) (excluded : List String)
    (entries : List Entry) :
    (∀ (isfile isdir : String → Bool) (folder : String)
        (outputArg : Option String) (excludedArg : List String)
        (verbose quiet : Bool),
        isfile (resolveOutput outputArg) = false → isdir folder = true →
        ∃ cfg : Config,
          parse_arguments isfile isdir folder outputArg excludedArg (some dpi)
              verbose quiet = Except.ok cfg
            ∧ cfg.dpi = dpi)
    ∧ (list_files dpi excluded entries).1 = []
    ∧ ∀ e ∈ entries, matchesExcluded e.name excluded = false →
        e.isFile = true → e.image ≠ none →
        (e.name, "is not a valid image") ∈ (list_files dpi excluded entries).2 := by
  have hw := targetW_lt_one_of_nonpos hdpi
  refine ⟨?_, ?_, ?_⟩
  · intro isfile isdir folder outputArg excludedArg verbose quiet hof hod
    unfold parse_arguments
    rw [if_neg (by rw [hof]; exact Bool.false_ne_true)]
    rw [hod]
    rw [if_neg (by decide)]
    exact ⟨_, rfl, rfl⟩
  · rcases hacc : (list_files dpi excluded entries).1 with _ | ⟨a, rest⟩
    · rfl
    · exfalso
      have ha : a ∈ (list_files dpi excluded entries).1 := by
        rw [hacc]
        exact List.mem_cons_self a rest
      obtain ⟨e, he, hce⟩ :=
        processEntries_mem_acc dpi excluded (sortEntries entries) a ha
      exact classify_not_inr_of_nonpos hdpi excluded e a hce
  · intro e he hx hf himg
    obtain ⟨dims, hdims⟩ := Option.ne_none_iff_exists'.mp himg
    have hclass := classify_invalid dpi excluded e hx hf
      (Or.inr ⟨dims, hdims, by unfold pilResize; rw [if_pos (Or.inl hw)]⟩)
    exact processEntries_mem_rej dpi excluded (sortEntries entries) e _
      ((sortEntries_perm entries).mem_iff.mpr he) hclass

/-- Witness for C10: dpi -5 passes argument parsing, and a perfectly valid
100x100 image is rejected as not a valid image, leaving no accepted
images. -/
theorem claim_C10_witness :
    ((-5 : Int) ≤ 0)
    ∧ (∃ cfg : Config,
        parse_arguments (fun _ => false) (fun _ => true) "cards" none []
            (some (-5)) false false = Except.ok cfg
          ∧ cfg.dpi = -5)
    ∧ (list_files (-5) [] [⟨"a.png", true, some (100, 100)⟩]).1 = []
    ∧ ("a.png", "is not a valid image")
        ∈ (list_files (-5) [] [⟨"a.png", true, some (100, 100)⟩]).2 := by
  have h := claim_C10 (-5) (by decide) [] [⟨"a.png", true, some (100, 100)⟩]
  exact ⟨by decide,
    h.1 (fun _ => false) (fun _ => true) "cards" none [] false false rfl rfl,
    h.2.1,
    h.2.2 ⟨"a.png", true, some (100, 100)⟩ (by decide) (by decide) rfl (by decide)⟩

end ToProxyPdf
